import Mathlib

/-!
Verification of the logtest crate (src/lib.rs): a capture sink for the log
facade that appends every log event to a process-wide FIFO queue, plus a
Logger handle exposing start/pop/len/is_empty and sequential iteration.

The global queue `EVENTS : Mutex<VecDeque<Record>>` is embedded as a
`List Record` (front of the list = front of the deque); operations that take
the handle by mutable reference are state-passing functions returning the
result together with the queue left behind.
-/

namespace Logtest

/-- Severity levels of the log facade (the log crate's `Level` enum),
from least to most verbose: Error, Warn, Info, Debug, Trace. -/
inductive Level where
  | Error
  | Warn
  | Info
  | Debug
  | Trace
deriving DecidableEq, Repr

/-- The log facade's `LevelFilter` enum, used by `log::set_max_level`. -/
inductive LevelFilter where
  | Off
  | Error
  | Warn
  | Info
  | Debug
  | Trace
deriving DecidableEq, Repr

/-- Modelled from the spec: the facade's structured value type (`kv::Value`,
which lives in the external log crate, not in src/) together with its own
textual rendering: a text value renders surrounded by quote marks
(the spec's example: a text value blue renders as \"blue\"), while any other
value carries its own rendering verbatim. -/
inductive KvValue where
  | text (s : String)
  | raw (rendered : String)
deriving DecidableEq, Repr

/-- The textual rendering of a `KvValue` (`val.to_string()` in the source). -/
def KvValue.render : KvValue → String
  | .text s => "\"" ++ s ++ "\""
  | .raw rendered => rendered

/-- The payload of a captured log message (`pub struct Record`). The
`HashMap<String, String>` of key-value pairs is embedded as an association
list with unique keys. -/
structure Record where
  args : String
  level : Level
  target : String
  key_values : List (String × String)
deriving DecidableEq, Repr

/-- `HashMap::insert`: if the key is present, replace its value in place
(last write wins); otherwise add the new entry. -/
def insertPair : List (String × String) → String → String → List (String × String)
  | [], k, v => [(k, v)]
  | p :: rest, k, v =>
    if p.1 = k then (k, v) :: rest else p :: insertPair rest k v

/-- The key-value visitor (`struct Visitor`): accumulates rendered pairs. -/
structure Visitor where
  pairs : List (String × String)
deriving DecidableEq, Repr

/-- `Visitor::visit_pair`: render the key (`format!` on the key is the key
string itself) and the value (its own rendering) and insert into the map. -/
def Visitor.visit_pair (v : Visitor) (key : String) (val : KvValue) : Visitor :=
  { pairs := insertPair v.pairs key (KvValue.render val) }

/-- The key-value source attached to an incoming event (`record.key_values()`
in the source, a `kv::Source` from the external log crate): a finite list of
pairs to visit, plus whether the source's own iteration protocol reports an
error while being traversed. -/
structure KvSource where
  pairs : List (String × KvValue)
  fails : Bool
deriving DecidableEq, Repr

/-- `kv::Source::visit`: drive the visitor over each pair in order; an error
from the source's own iteration protocol surfaces as `Except.error`. -/
def KvSource.visit (src : KvSource) (v : Visitor) : Except Unit Visitor :=
  if src.fails then .error ()
  else .ok (src.pairs.foldl (fun acc p => acc.visit_pair p.1 p.2) v)

/-- An incoming log event (`log::Record` of the external facade) as the sink
observes it: the rendered message body (`format!` on `record.args()`),
the level, the target string, and the key-value source. -/
structure LogRecord where
  args : String
  level : Level
  target : String
  key_values : KvSource
deriving DecidableEq, Repr

/-- `LoggerInternal::enabled`: always true, no filtering. -/
def LoggerInternal.enabled (_metadata : Unit) : Bool :=
  true

/-- The `Record` the sink constructs for an event whose traversal succeeds:
rendered message, level, target, and the mapping accumulated by the visitor
started from an empty map. -/
def toRecord (record : LogRecord) : Record :=
  { args := record.args
    level := record.level
    target := record.target
    key_values :=
      (record.key_values.pairs.foldl
        (fun acc p => acc.visit_pair p.1 p.2) ({ pairs := [] } : Visitor)).pairs }

/-- `LoggerInternal::log`: if enabled (always), visit the event's key-value
pairs with a fresh visitor — the `.expect` panic on a traversal error is
embedded as `Except.error` — and push the constructed `Record` onto the back
of the global queue. -/
def LoggerInternal.log (record : LogRecord) (events : List Record) :
    Except Unit (List Record) :=
  if LoggerInternal.enabled () = true then
    match record.key_values.visit { pairs := [] } with
    | .error e => .error e
    | .ok visitor =>
      .ok (events ++ [{ args := record.args
                        level := record.level
                        target := record.target
                        key_values := visitor.pairs }])
  else
    .ok events

/-- `LoggerInternal::flush`: a no-op. -/
def LoggerInternal.flush (events : List Record) : List Record :=
  events

/-- The test logger handle (`pub struct Logger;`): carries no state of its
own; every handle is a view onto the one global queue. -/
structure Logger where
deriving DecidableEq, Repr

/-- The process-global installation state: whether a logger has been
installed into the facade's single global slot, the global max level, and
the `EVENTS` queue. -/
structure GlobalState where
  installed : Bool
  max_level : LevelFilter
  queue : List Record
deriving DecidableEq, Repr

/-- Modelled from the spec: `log::set_logger` (external log crate) — the
global registration can succeed only once per process; a second invocation
returns an error instead of installing. -/
def set_logger (s : GlobalState) : Except Unit GlobalState :=
  if s.installed then .error () else .ok { s with installed := true }

/-- Modelled from the spec: `log::set_max_level` (external log crate) — set
the global maximum severity filter. -/
def set_max_level (f : LevelFilter) (s : GlobalState) : GlobalState :=
  { s with max_level := f }

/-- `Logger::start`: `log::set_logger(&LoggerInternal).unwrap()` — the
`.unwrap` panic on a second registration is embedded as `Except.error` —
then `log::set_max_level(LevelFilter::Trace)`, then return a fresh handle. -/
def Logger.start (s : GlobalState) : Except Unit (Logger × GlobalState) :=
  match set_logger s with
  | .error e => .error e
  | .ok s1 => .ok (⟨⟩, set_max_level LevelFilter.Trace s1)

/-- `Logger::pop`: `EVENTS.lock().unwrap().pop_front()` — remove and return
the front of the queue, or none when empty. -/
def Logger.pop (q : List Record) : Option Record × List Record :=
  match q with
  | [] => (none, [])
  | r :: rest => (some r, rest)

/-- `Logger::len`: the current queue length; the queue is untouched even
though the receiver is a mutable reference. -/
def Logger.len (q : List Record) : Nat × List Record :=
  (q.length, q)

/-- `Logger::is_empty`: `VecDeque::is_empty` on the queue; the queue is
untouched even though the receiver is a mutable reference. -/
def Logger.is_empty (q : List Record) : Bool × List Record :=
  (q.isEmpty, q)

/-- The free function `pub fn start()`: delegates to `Logger::start`. -/
def start (s : GlobalState) : Except Unit (Logger × GlobalState) :=
  Logger.start s

/-- `impl Iterator for Logger { fn next }`: `self.pop()`. -/
def Logger.next (q : List Record) : Option Record × List Record :=
  Logger.pop q

/-- Issue a sequence of log calls in order, stopping at the first panic
(repeatedly invoking `LoggerInternal::log`). -/
def logMany : List LogRecord → List Record → Except Unit (List Record)
  | [], q => .ok q
  | ev :: rest, q =>
    match LoggerInternal.log ev q with
    | .error e => .error e
    | .ok q1 => logMany rest q1

/-- Drain the queue by repeated `Logger.pop` until it reports none, with
fuel bounding the number of pop calls; returns the popped records in pop
order together with the queue left behind. -/
def drainPopAux : Nat → List Record → List Record × List Record
  | 0, q => ([], q)
  | n + 1, q =>
    match Logger.pop q with
    | (none, q1) => ([], q1)
    | (some r, q1) =>
      let rec1 := drainPopAux n q1
      (r :: rec1.1, rec1.2)

/-- Drain the whole queue by repeated `Logger.pop` (the queue length is
enough fuel, since every successful pop shortens the queue by one). -/
def drainPop (q : List Record) : List Record × List Record :=
  drainPopAux q.length q

/-- Drive the handle as a sequence: repeatedly request the next element via
`Logger.next` until exhausted, with fuel bounding the number of requests. -/
def drainNextAux : Nat → List Record → List Record × List Record
  | 0, q => ([], q)
  | n + 1, q =>
    match Logger.next q with
    | (none, q1) => ([], q1)
    | (some r, q1) =>
      let rec1 := drainNextAux n q1
      (r :: rec1.1, rec1.2)

/-- Drive the handle as a sequence until exhausted. -/
def drainNext (q : List Record) : List Record × List Record :=
  drainNextAux q.length q

/-- Modelled from the spec: the last value written for a key across a list
of pairs, rendered — the value the mapping must hold under last-write-wins. -/
def lastRendered : List (String × KvValue) → String → Option String
  | [], _ => none
  | (k, v) :: rest, a =>
    match lastRendered rest a with
    | some s => some s
    | none => if k = a then some (KvValue.render v) else none

/-- The mapping the sink builds from an event's pairs: fold the visitor over
them starting from an empty map (as `LoggerInternal::log` does). -/
def buildMap (pairs : List (String × KvValue)) : List (String × String) :=
  (pairs.foldl (fun acc p => acc.visit_pair p.1 p.2) ({ pairs := [] } : Visitor)).pairs

/-- One operation on the shared queue, as issued by the sink or a handle. -/
inductive QOp where
  | push (r : Record)
  | pop
  | len
  | isEmpty
deriving DecidableEq, Repr

/-- Whether an operation is a pure observation (`len` / `is_empty`). -/
def QOp.isObservation : QOp → Bool
  | .len => true
  | .isEmpty => true
  | _ => false

/-- Run a sequence of queue operations from a starting queue, returning the
final queue and the results of the pop calls in order. -/
def runOps : List QOp → List Record → List Record × List (Option Record)
  | [], q => (q, [])
  | .push r :: rest, q => runOps rest (q ++ [r])
  | .pop :: rest, q =>
    let res := Logger.pop q
    let next := runOps rest res.2
    (next.1, res.1 :: next.2)
  | .len :: rest, q => runOps rest (Logger.len q).2
  | .isEmpty :: rest, q => runOps rest (Logger.is_empty q).2

/-- Sample event from the smoke test: `log::info!("hello")`. -/
def evHello : LogRecord :=
  { args := "hello", level := .Info, target := "app"
    key_values := { pairs := [], fails := false } }

/-- Sample event from the smoke test: `log::info!("world")`. -/
def evWorld : LogRecord :=
  { args := "world", level := .Info, target := "app"
    key_values := { pairs := [], fails := false } }

/-- Sample event from the smoke test: `kv_log_macro::info!` with message
hello and one structured field, color = a quoted text value blue. -/
def evColor : LogRecord :=
  { args := "hello", level := .Info, target := "app"
    key_values := { pairs := [("color", .text "blue")], fails := false } }

/-- A sample event whose key-value source reports an error from its own
iteration protocol. -/
def evFail : LogRecord :=
  { args := "boom", level := .Info, target := "app"
    key_values := { pairs := [], fails := true } }

/-- The process-start global state: nothing installed, default filter Off,
empty queue. -/
def initState : GlobalState :=
  { installed := false, max_level := .Off, queue := [] }

/-! ## Helper lemmas -/

/-- `Logger.start` in closed form: error when already installed, otherwise
install and raise the max level to Trace. -/
theorem Logger.start_eq (s : GlobalState) :
    Logger.start s =
      if s.installed then .error ()
      else .ok (⟨⟩, set_max_level LevelFilter.Trace { s with installed := true }) := by
  unfold Logger.start set_logger
  by_cases hs : s.installed <;> simp [hs]

/-- A successful `Logger.start` leaves the installed flag set. -/
theorem installed_of_start_ok (s s1 : GlobalState) (l : Logger)
    (h : Logger.start s = .ok (l, s1)) : s1.installed = true := by
  rw [Logger.start_eq] at h
  by_cases hs : s.installed
  · simp [hs] at h
  · simp [hs, set_max_level] at h
    rw [← h]

/-- When the event's key-value traversal succeeds, `LoggerInternal.log`
appends exactly one record, the one `toRecord` describes. -/
theorem log_ok (ev : LogRecord) (q : List Record)
    (h : ev.key_values.fails = false) :
    LoggerInternal.log ev q = .ok (q ++ [toRecord ev]) := by
  unfold LoggerInternal.log KvSource.visit LoggerInternal.enabled toRecord
  simp [h]

/-- When the event's key-value traversal fails, `LoggerInternal.log`
panics. -/
theorem log_err (ev : LogRecord) (q : List Record)
    (h : ev.key_values.fails = true) :
    LoggerInternal.log ev q = .error () := by
  unfold LoggerInternal.log KvSource.visit LoggerInternal.enabled
  simp [h]

/-- Logging a list of traversal-clean events appends their records in issue
order. -/
theorem logMany_ok (evs : List LogRecord)
    (h : ∀ ev ∈ evs, ev.key_values.fails = false) :
    ∀ q, logMany evs q = .ok (q ++ evs.map toRecord) := by
  induction evs with
  | nil => intro q; simp [logMany]
  | cons ev rest ih =>
    intro q
    have h1 : ev.key_values.fails = false := h ev (by simp)
    have h2 : ∀ e ∈ rest, e.key_values.fails = false :=
      fun e he => h e (by simp [he])
    simp only [logMany, log_ok ev q h1, ih h2, List.map_cons]
    simp

/-- Full drain with length as fuel returns the whole queue in order and
leaves it empty. -/
theorem drainPopAux_length (q : List Record) : drainPopAux q.length q = (q, []) := by
  induction q with
  | nil => rfl
  | cons r rest ih => simp [drainPopAux, Logger.pop, ih]

/-- `drainPop` returns the queue contents in order and leaves it empty. -/
theorem drainPop_eq (q : List Record) : drainPop q = (q, []) := by
  unfold drainPop
  exact drainPopAux_length q

/-! ## Claims -/

/-- Claim C1: FIFO capture — starting from a drained (empty) queue, issuing
N log calls in order leaves `len()` equal to N, draining by repeated `pop()`
returns the N records in exactly the issue order, and afterwards `pop()`
returns none and `len()` is 0. -/
theorem C1_fifo_capture (evs : List LogRecord)
    (h : ∀ ev ∈ evs, ev.key_values.fails = false) :
    logMany evs [] = .ok (evs.map toRecord) ∧
    (Logger.len (evs.map toRecord)).1 = evs.length ∧
    drainPop (evs.map toRecord) = (evs.map toRecord, []) ∧
    Logger.pop (drainPop (evs.map toRecord)).2 = (none, []) ∧
    (Logger.len (drainPop (evs.map toRecord)).2).1 = 0 := by
  refine ⟨?_, ?_, drainPop_eq _, ?_, ?_⟩
  · simpa using logMany_ok evs h []
  · simp [Logger.len]
  · rw [drainPop_eq]; rfl
  · rw [drainPop_eq]; rfl

/-- Witness for C1 at the smoke-test scenario: the hello and world events. -/
theorem C1_witness :
    logMany [evHello, evWorld] [] = .ok ([evHello, evWorld].map toRecord) ∧
    (Logger.len ([evHello, evWorld].map toRecord)).1 = [evHello, evWorld].length ∧
    drainPop ([evHello, evWorld].map toRecord) = ([evHello, evWorld].map toRecord, []) ∧
    Logger.pop (drainPop ([evHello, evWorld].map toRecord)).2 = (none, []) ∧
    (Logger.len (drainPop ([evHello, evWorld].map toRecord)).2).1 = 0 :=
  C1_fifo_capture [evHello, evWorld] (by decide)

/-- Claim C2: after any successful `start`, a second invocation fails hard
(the `.unwrap` on `log::set_logger` panics); it neither silently succeeds
nor returns a handle. -/
theorem C2_double_start_fails (s s1 : GlobalState) (l : Logger)
    (h : Logger.start s = .ok (l, s1)) :
    Logger.start s1 = .error () := by
  rw [Logger.start_eq, installed_of_start_ok s s1 l h]
  simp

/-- Witness for C2: start from the process-start state, then start again. -/
theorem C2_witness :
    Logger.start { installed := true, max_level := LevelFilter.Trace, queue := [] } =
      .error () :=
  C2_double_start_fails initState
    { installed := true, max_level := LevelFilter.Trace, queue := [] } ⟨⟩ rfl

/-- Counterexample for C3: from the process-start state the first
Handle-producing call succeeds, but a second call errors (panics) instead of
succeeding and returning a view onto the shared queue. -/
theorem C3_counterexample :
    Logger.start initState =
      .ok (⟨⟩, { installed := true, max_level := LevelFilter.Trace, queue := [] }) ∧
    Logger.start { installed := true, max_level := LevelFilter.Trace, queue := [] } =
      .error () :=
  ⟨rfl, rfl⟩

/-- Claim C3 (amended): both Handle-producing calls (`Logger::start` and the
free `start`) perform the same global installation; only the first call per
process succeeds, and any later call fails (panics) rather than returning
another handle. -/
theorem C3_only_first_start_succeeds (s s1 : GlobalState) (l : Logger)
    (h : Logger.start s = .ok (l, s1)) :
    start s = Logger.start s ∧
    Logger.start s1 = .error () ∧
    start s1 = .error () := by
  have hi := installed_of_start_ok s s1 l h
  refine ⟨rfl, ?_, ?_⟩
  · rw [Logger.start_eq, hi]
    simp
  · show Logger.start s1 = .error ()
    rw [Logger.start_eq, hi]
    simp

/-- Witness for the amended C3 at the process-start state. -/
theorem C3_witness :
    start initState = Logger.start initState ∧
    Logger.start { installed := true, max_level := LevelFilter.Trace, queue := [] } =
      .error () ∧
    start { installed := true, max_level := LevelFilter.Trace, queue := [] } =
      .error () :=
  C3_only_first_start_succeeds initState
    { installed := true, max_level := LevelFilter.Trace, queue := [] } ⟨⟩ rfl

/-- Claim C5: `pop()` on the empty queue is an explicit none, leaving the
queue unchanged (still empty); on a non-empty queue it removes and returns
the oldest (front) record. -/
theorem C5_pop_empty_not_error :
    Logger.pop ([] : List Record) = (none, []) ∧
    ∀ (r : Record) (rest : List Record), Logger.pop (r :: rest) = (some r, rest) :=
  ⟨rfl, fun _ _ => rfl⟩

/-- Claim C6: `is_empty()` holds exactly when `len()` is zero, and after a
full drain both hold. -/
theorem C6_is_empty_iff_len_zero (q : List Record) :
    ((Logger.is_empty q).1 = true ↔ (Logger.len q).1 = 0) ∧
    (Logger.is_empty (drainPop q).2).1 = true ∧
    (Logger.len (drainPop q).2).1 = 0 := by
  refine ⟨?_, ?_, ?_⟩
  · cases q <;> simp [Logger.is_empty, Logger.len]
  · rw [drainPop_eq]; rfl
  · rw [drainPop_eq]; rfl

/-- Claim C4: record fidelity — for a traversal-clean event, handling it
appends exactly the record whose message body, level and target are the
event's, verbatim. -/
theorem C4_record_fidelity (ev : LogRecord) (q : List Record)
    (h : ev.key_values.fails = false) :
    LoggerInternal.log ev q = .ok (q ++ [toRecord ev]) ∧
    (toRecord ev).args = ev.args ∧
    (toRecord ev).level = ev.level ∧
    (toRecord ev).target = ev.target :=
  ⟨log_ok ev q h, rfl, rfl, rfl⟩

/-- Witness for C4 at the structured-field smoke-test event. -/
theorem C4_witness :
    LoggerInternal.log evColor [] = .ok ([] ++ [toRecord evColor]) ∧
    (toRecord evColor).args = evColor.args ∧
    (toRecord evColor).level = evColor.level ∧
    (toRecord evColor).target = evColor.target :=
  C4_record_fidelity evColor [] rfl

/-- Keys after `insertPair`: the inserted key plus the existing keys. -/
theorem mem_keys_insertPair (m : List (String × String)) (k v a : String) :
    a ∈ (insertPair m k v).map Prod.fst ↔ a = k ∨ a ∈ m.map Prod.fst := by
  induction m with
  | nil => simp [insertPair]
  | cons p rest ih =>
    obtain ⟨pk, pv⟩ := p
    by_cases hp : pk = k
    · subst hp
      simp [insertPair]
    · simp [insertPair, hp, ih]
      tauto

/-- `insertPair` preserves key uniqueness. -/
theorem nodup_keys_insertPair (m : List (String × String)) (k v : String)
    (h : (m.map Prod.fst).Nodup) : ((insertPair m k v).map Prod.fst).Nodup := by
  induction m with
  | nil => simp [insertPair]
  | cons p rest ih =>
    simp only [List.map_cons, List.nodup_cons] at h
    by_cases hp : p.1 = k
    · simp only [insertPair, if_pos hp, List.map_cons, List.nodup_cons]
      exact ⟨hp ▸ h.1, h.2⟩
    · simp only [insertPair, if_neg hp, List.map_cons, List.nodup_cons]
      refine ⟨fun hmem => ?_, ih h.2⟩
      rcases (mem_keys_insertPair rest k v p.1).1 hmem with h1 | h1
      · exact hp h1
      · exact h.1 h1

/-- Lookup after `insertPair`: the inserted key maps to the new value, all
other keys are untouched (last write wins). -/
theorem lookup_insertPair (m : List (String × String)) (k v a : String) :
    List.lookup a (insertPair m k v) = if a = k then some v else List.lookup a m := by
  induction m with
  | nil =>
    by_cases hak : a = k
    · simp [insertPair, List.lookup, hak]
    · have hb : (a == k) = false := by simp [hak]
      simp [insertPair, List.lookup, hb, hak]
  | cons p rest ih =>
    obtain ⟨pk, pv⟩ := p
    by_cases hp : pk = k
    · subst hp
      by_cases hap : a = pk
      · simp [insertPair, List.lookup, hap]
      · have hb : (a == pk) = false := by simp [hap]
        simp [insertPair, List.lookup, hb, hap]
    · by_cases hap : a = pk
      · have hak : ¬a = k := fun hk => hp (hap ▸ hk)
        have hb : (a == pk) = true := by simp [hap]
        simp [insertPair, hp, List.lookup, hb, hak]
      · have hb : (a == pk) = false := by simp [hap]
        simp [insertPair, hp, List.lookup, hb, ih]

/-- Folding the visitor over pairs keeps key uniqueness. -/
theorem nodup_keys_visit_foldl (pairs : List (String × KvValue)) :
    ∀ m : Visitor, (m.pairs.map Prod.fst).Nodup →
      (((pairs.foldl (fun acc p => acc.visit_pair p.1 p.2) m).pairs).map Prod.fst).Nodup := by
  induction pairs with
  | nil => intro m h; simpa using h
  | cons p rest ih =>
    intro m h
    rw [List.foldl_cons]
    exact ih _ (nodup_keys_insertPair _ _ _ h)

/-- Keys after folding the visitor: the pairs' keys plus the accumulator's. -/
theorem mem_keys_visit_foldl (pairs : List (String × KvValue)) :
    ∀ (m : Visitor) (a : String),
      (a ∈ ((pairs.foldl (fun acc p => acc.visit_pair p.1 p.2) m).pairs).map Prod.fst ↔
        a ∈ pairs.map Prod.fst ∨ a ∈ m.pairs.map Prod.fst) := by
  induction pairs with
  | nil => intro m a; simp
  | cons p rest ih =>
    intro m a
    rw [List.foldl_cons, ih]
    simp only [Visitor.visit_pair]
    rw [mem_keys_insertPair]
    rw [List.map_cons, List.mem_cons]
    tauto

/-- Lookup after folding the visitor: the last value written for the key
(rendered), falling back to the accumulator. -/
theorem lookup_visit_foldl (pairs : List (String × KvValue)) :
    ∀ (m : Visitor) (a : String),
      List.lookup a ((pairs.foldl (fun acc p => acc.visit_pair p.1 p.2) m).pairs) =
        (match lastRendered pairs a with
          | some s => some s
          | none => List.lookup a m.pairs) := by
  induction pairs with
  | nil => intro m a; simp [lastRendered]
  | cons p rest ih =>
    intro m a
    obtain ⟨k, v⟩ := p
    rw [List.foldl_cons, ih]
    cases hl : lastRendered rest a with
    | some s => simp [lastRendered, hl]
    | none =>
      simp only [lastRendered, hl, Visitor.visit_pair, lookup_insertPair]
      by_cases hak : a = k
      · simp [hak]
      · have hka : ¬k = a := fun h => hak h.symm
        simp [hak, hka]

/-- Claim C7: key-value extraction — the mapping the sink builds has unique
keys, one entry per distinct key of the event's pairs, with last-write-wins
values (the value's own rendering, quoting preserved); concretely, the
field color = text blue yields the single pair with the quoted rendering. -/
theorem C7_key_value_extraction (pairs : List (String × KvValue)) :
    ((buildMap pairs).map Prod.fst).Nodup ∧
    (∀ a, a ∈ (buildMap pairs).map Prod.fst ↔ a ∈ pairs.map Prod.fst) ∧
    (∀ a, List.lookup a (buildMap pairs) = lastRendered pairs a) ∧
    (toRecord evColor).key_values = [("color", "\"blue\"")] := by
  refine ⟨?_, ?_, ?_, by decide⟩
  · exact nodup_keys_visit_foldl pairs ⟨[]⟩ (by simp)
  · intro a
    have h := mem_keys_visit_foldl pairs ⟨[]⟩ a
    simpa [buildMap] using h
  · intro a
    have h := lookup_visit_foldl pairs ⟨[]⟩ a
    cases hl : lastRendered pairs a <;>
      simp only [hl] at h <;> simpa [buildMap, hl] using h

/-- Claim C8: the sink's event handling panics exactly when the event's
key-value traversal reports an error; when traversal succeeds it never
fails and its only effect is appending one record to the queue. -/
theorem C8_panic_iff_traversal_error (ev : LogRecord) (q : List Record) :
    (LoggerInternal.log ev q = .error () ↔ ev.key_values.fails = true) ∧
    (ev.key_values.fails = false →
      LoggerInternal.log ev q = .ok (q ++ [toRecord ev])) := by
  cases hf : ev.key_values.fails with
  | false =>
    refine ⟨?_, fun _ => log_ok ev q hf⟩
    rw [log_ok ev q hf]
    simp [hf]
  | true =>
    refine ⟨?_, fun h => by simp at h⟩
    rw [log_err ev q hf]
    simp [hf]

/-- Witness for C8: a clean event appends one record; an event whose source
fails makes handling panic. -/
theorem C8_witness :
    LoggerInternal.log evHello [] = .ok ([] ++ [toRecord evHello]) ∧
    LoggerInternal.log evFail [] = .error () :=
  ⟨(C8_panic_iff_traversal_error evHello []).2 rfl,
   (C8_panic_iff_traversal_error evFail []).1.mpr rfl⟩

/-- The fueled next-driven drain coincides with the fueled pop-driven
drain. -/
theorem drainNextAux_eq_drainPopAux (n : Nat) :
    ∀ q, drainNextAux n q = drainPopAux n q := by
  induction n with
  | zero => intro q; rfl
  | succ n ih =>
    intro q
    cases q with
    | nil => rfl
    | cons r rest => simp [drainNextAux, drainPopAux, Logger.next, Logger.pop, ih]

/-- Claim C9: driving the handle as a sequence is exactly repeated `pop` —
each next-element request returns what `pop` would and leaves the same
queue, and a full iteration drains exactly what repeated `pop` drains. -/
theorem C9_iteration_refines_pop :
    (∀ q : List Record, Logger.next q = Logger.pop q) ∧
    ∀ q : List Record, drainNext q = drainPop q := by
  refine ⟨fun q => rfl, fun q => ?_⟩
  unfold drainNext drainPop
  exact drainNextAux_eq_drainPopAux q.length q

/-- Claim C10: `len` and `is_empty` are pure observations — they return the
queue unchanged, and deleting them from any interleaving of pushes and pops
changes neither the final queue nor any pop result. -/
theorem C10_len_is_empty_pure :
    (∀ q : List Record, (Logger.len q).2 = q) ∧
    (∀ q : List Record, (Logger.is_empty q).2 = q) ∧
    ∀ (ops : List QOp) (q : List Record),
      runOps ops q = runOps (ops.filter fun o => !o.isObservation) q := by
  refine ⟨fun q => rfl, fun q => rfl, ?_⟩
  intro ops
  induction ops with
  | nil => intro q; rfl
  | cons op rest ih =>
    intro q
    cases op with
    | push r => simp [runOps, QOp.isObservation, List.filter_cons, ih]
    | pop => simp [runOps, QOp.isObservation, List.filter_cons, ih]
    | len => simp [runOps, QOp.isObservation, List.filter_cons, Logger.len, ih]
    | isEmpty => simp [runOps, QOp.isObservation, List.filter_cons, Logger.is_empty, ih]

end Logtest
